import Mathlib

/-!
Verification development for the `esy-plots` data-preparation core
(`src/data/preparation.py`).

The embedding below models the `DataPreparer` component: metadata records
(`column_metadata`), named data groups holding an indexed table plus a
per-column metadata mapping, the mutating operations `init_data_group`,
`add_value_column` and `add_value_rows`, and the persistence step
`save_to_file` (index-grouping compaction and the enum-to-string metadata
conversion).

Modelling conventions:
* Python dictionaries (insertion ordered) become association lists
  `List (String × _)`; assignment `d[k] = v` / `d.update({k: v})` becomes
  `dictUpdate`, which replaces in place when the key is present and appends
  otherwise.
* A pandas `DataFrame` is modelled column-wise: a list of index column
  names plus a list of named columns, each a list of `(index tuple, value)`
  entries.  `pd.concat(axis=0)` appends a series' entries to its column
  (creating the column when absent); `pd.concat(axis=1)` appends a whole
  column.  Cells a column does not have at some index tuple are absent
  entries (pandas `NaN`); `groupby(...).sum()` treats them as `0`.
* A pandas `Series` carries its name, its index column names and its
  entries.  The `_ensure_is_series` squeeze of one-column frames is not
  modelled: value data is taken as an already-squeezed series.
* Exceptions become an `Option String` error component: every operation
  returns the (possibly mutated) preparer state together with
  `some message` when `DataPreparationException` is raised, mirroring the
  source's mutation order so that the state returned on an error is
  exactly the state the Python object would be left in.
* Index values are modelled as `List Int` tuples and cell values as `Int`.
-/

/-- The two members of the Python enum `Metadatum` (preparation.py:18-21). -/
inductive Metadatum where
  | Label : Metadatum
  | Unit : Metadatum
deriving DecidableEq

/-- The Python enum member's `.name` attribute: `Metadatum.Label.name = "Label"`. -/
def Metadatum.enumName : Metadatum → String
  | .Label => "Label"
  | .Unit => "Unit"

/-- A metadata dictionary `Dict[Metadatum, str]`; values are `Option String`
because Python permits `None` (the default `unit`). -/
abbrev MetadataRecord := List (Metadatum × Option String)

/-- `column_metadata(label, unit=None)` (preparation.py:24-35): builds
`{Metadatum.Label: label, Metadatum.Unit: unit}` with no validation. -/
def column_metadata (label : String) (unit : Option String) : MetadataRecord :=
  [(Metadatum.Label, some label), (Metadatum.Unit, unit)]

/-- A pandas `Series`: a name, index level names, and `(index tuple, value)`
entries. -/
structure Series where
  name : String
  indexNames : List String
  entries : List (List Int × Int)
deriving DecidableEq

/-- A pandas `DataFrame`, column-wise: index level names and named columns. -/
structure DataFrame where
  indexNames : List String
  cols : List (String × List (List Int × Int))
deriving DecidableEq

/-- One entry of `DataPreparer.datasets`: the `_Type.Data` table and the
`_Type.Metadata` dictionary of a group. -/
structure DataGroup where
  data : DataFrame
  metadata : List (String × MetadataRecord)
deriving DecidableEq

/-- `DataPreparer.__init__` state: `self.datasets`, an insertion-ordered
dictionary from group name to group (preparation.py:41-43). -/
structure DataPreparer where
  datasets : List (String × DataGroup)
deriving DecidableEq

/-- Dictionary lookup `d[k]` / `k in d.keys()` on an association list. -/
def lookup? {α : Type} (d : List (String × α)) (k : String) : Option α :=
  (d.find? (fun p => decide (p.1 = k))).map Prod.snd

/-- Python dictionary assignment `d[k] = v`: replace the value in place when
the key exists, append the pair otherwise. -/
def dictUpdate {α : Type} (d : List (String × α)) (k : String) (v : α) : List (String × α) :=
  if d.any (fun p => decide (p.1 = k)) then
    d.map (fun p => if p.1 = k then (k, v) else p)
  else
    d ++ [(k, v)]

/-- `DataPreparer.init_data_group` (preparation.py:89-111): fails only when
the group name is already present; otherwise stores an empty table indexed
by the metadata dictionary's keys together with that key metadata. -/
def DataPreparer.init_data_group (p : DataPreparer) (group : String)
    (key_metadata : List (String × MetadataRecord)) : DataPreparer × Option String :=
  if (lookup? p.datasets group).isSome then
    (p, some ("Group name " ++ group ++ " already exists."))
  else
    let key_columns := key_metadata.map Prod.fst
    let empty_df : DataFrame := { indexNames := key_columns, cols := [] }
    ({ datasets := dictUpdate p.datasets group { data := empty_df, metadata := key_metadata } },
      none)

/-- `DataPreparer._assert_indexes_match` (preparation.py:148-167): first the
level-count check, then each group index name is looked up among the
series' index names, raising at the first one missing. -/
def assert_indexes_match (container : DataFrame) (column : Series) : Option String :=
  if container.indexNames.length ≠ column.indexNames.length then
    some "Length of index in column to add does not match that of the assigned data group."
  else
    (container.indexNames.find? (fun n => decide (n ∉ column.indexNames))).map
      (fun n => "Index column " ++ n ++ " not found in index of column to add.")

/-- `pd.concat([container, pd.DataFrame(rows)], axis=0)` in the column-wise
model: the series' entries are appended to the column of the same name, or
a fresh column is appended when the frame has none. -/
def concat_rows (df : DataFrame) (rows : Series) : DataFrame :=
  if rows.name ∈ df.cols.map Prod.fst then
    { indexNames := df.indexNames,
      cols := df.cols.map (fun c => if c.1 = rows.name then (c.1, c.2 ++ rows.entries) else c) }
  else
    { indexNames := df.indexNames, cols := df.cols ++ [(rows.name, rows.entries)] }

/-- `DataPreparer.add_value_column` (preparation.py:113-133): group-existence
check, index check, then `pd.concat(axis=1)` (the column is appended, even
when a column of the same name already exists) and a metadata update. -/
def DataPreparer.add_value_column (p : DataPreparer) (group : String) (column : Series)
    (metadata : MetadataRecord) : DataPreparer × Option String :=
  match lookup? p.datasets group with
  | none => (p, some ("Group name " ++ group ++ " already exists."))
  | some grp =>
    match assert_indexes_match grp.data column with
    | some e => (p, some e)
    | none =>
      let newData : DataFrame :=
        { indexNames := grp.data.indexNames,
          cols := grp.data.cols ++ [(column.name, column.entries)] }
      let newMeta := dictUpdate grp.metadata column.name metadata
      ({ datasets := dictUpdate p.datasets group { data := newData, metadata := newMeta } },
        none)

/-- Python truthiness test `not metadata` on the optional metadata argument:
true for `None` and for the empty dictionary. -/
def metadataFalsy : Option MetadataRecord → Bool
  | none => true
  | some [] => true
  | some (_ :: _) => false

/-- `DataPreparer.add_value_rows` (preparation.py:185-209): group-existence
check, index check; for a column name not among the table's columns the
metadata argument must be truthy and is registered, otherwise it is
ignored; finally the rows are concatenated along the index axis. -/
def DataPreparer.add_value_rows (p : DataPreparer) (group : String) (rows : Series)
    (metadata : Option MetadataRecord) : DataPreparer × Option String :=
  match lookup? p.datasets group with
  | none => (p, some ("Group name " ++ group ++ " already exists."))
  | some grp =>
    match assert_indexes_match grp.data rows with
    | some e => (p, some e)
    | none =>
      if rows.name ∈ grp.data.cols.map Prod.fst then
        ({ datasets := dictUpdate p.datasets group
              { data := concat_rows grp.data rows, metadata := grp.metadata } },
          none)
      else if metadataFalsy metadata then
        (p, some ("No metadata specified for new column " ++ rows.name ++ "."))
      else
        ({ datasets := dictUpdate p.datasets group
              { data := concat_rows grp.data rows,
                metadata := dictUpdate grp.metadata rows.name (metadata.getD []) } },
          none)

/-- Deduplication of the index tuples appearing in a table, the key set of
`groupby(list(data.index.names))`.  Pandas additionally sorts the group
keys; the model keeps one occurrence of each distinct key without
modelling that ordering, which no property here depends on. -/
def dedupKeys (l : List (List Int)) : List (List Int) :=
  l.dedup

/-- Sum of a column's values at one index tuple; absent cells are pandas
`NaN` and contribute `0` to `sum()`. -/
def sumAt (entries : List (List Int × Int)) (k : List Int) : Int :=
  ((entries.filter (fun e => decide (e.1 = k))).map Prod.snd).sum

/-- `DataPreparer._group_by_index` (preparation.py:63-74):
`data.groupby(list(data.index.names)).sum()` — one row per distinct index
tuple, every column summed over that tuple. -/
def DataPreparer.group_by_index (data : DataFrame) : DataFrame :=
  let keys := dedupKeys ((data.cols.map (fun c => c.2.map Prod.fst)).flatten)
  { indexNames := data.indexNames,
    cols := data.cols.map (fun c => (c.1, keys.map (fun k => (k, sumAt c.2 k)))) }

/-- The decoded form of one group's serialized metadata attribute: column
name to (lower-cased field name to value). -/
abbrev MetadataBlock := List (String × List (String × Option String))

/-- Python's `str.lower()`, character by character (the enum names contain
only ASCII letters). -/
def strLower (s : String) : String :=
  ⟨s.data.map Char.toLower⟩

/-- `DataPreparer._convert_enums` (preparation.py:76-87): outer keys are kept
as they are; each inner enum key becomes `enum.name.lower()`. -/
def DataPreparer.convert_enums (metadata : List (String × MetadataRecord)) : MetadataBlock :=
  metadata.map (fun kv => (kv.1, kv.2.map (fun ev => (strLower ev.1.enumName, ev.2))))

/-- Python's substring test `needle in haystack` on strings. -/
def strContains (needle haystack : String) : Bool :=
  decide (needle.toList <:+: haystack.toList)

/-- The extension handling of `DataPreparer.save_to_file` (preparation.py:52-53):
when none of `"h5"`, `"hdf5"`, `"he5"` occurs as a substring of the path,
`".hdf5"` is appended. -/
def savePath (out_file_path : String) : String :=
  if ["h5", "hdf5", "he5"].any (fun extension => strContains extension out_file_path) then
    out_file_path
  else
    out_file_path ++ ".hdf5"

/-- `DataPreparer.save_to_file` (preparation.py:45-61): the file name written
and, per group in order, the compacted table `_group_by_index(data)` and the
decoded `plot_metadata` attribute (JSON encoding and decoding of the
converted dictionary are modelled as the identity on `MetadataBlock`). -/
def DataPreparer.save_to_file (p : DataPreparer) (out_file_path : String) :
    String × List (String × DataFrame × MetadataBlock) :=
  (savePath out_file_path,
    p.datasets.map (fun g =>
      (g.1, DataPreparer.group_by_index g.2.data, DataPreparer.convert_enums g.2.metadata)))

/-- Modelled from the spec (§4.5, §8): "path lacks one of the recognized
container extensions" read as the file name not ending in `".h5"`,
`".hdf5"` or `".he5"`.  Used only to compare the spec's wording with
`savePath`. -/
def specHasRecognizedExtension (path : String) : Bool :=
  [".h5", ".hdf5", ".he5"].any (fun extension => decide (extension.toList <:+ path.toList))

/-- Lookup of one field inside a metadata record, `record[m]`. -/
def mdLookup? (record : MetadataRecord) (m : Metadatum) : Option (Option String) :=
  (record.find? (fun e => decide (e.1 = m))).map Prod.snd

theorem append_hdf5_ne (path : String) : path ++ ".hdf5" ≠ path := by
  intro h
  have hlen := congrArg String.length h
  have h5 : (".hdf5" : String).length = 5 := rfl
  rw [String.length_append, h5] at hlen
  omega

/-- C1: `column_metadata` does not raise on an empty or whitespace-only
label — it returns the record unchanged, contradicting the claim (and the
repository's own tests, which expect `DataPreparationException`). -/
theorem column_metadata_blank_label_returns :
    column_metadata "" none = [(Metadatum.Label, some ""), (Metadatum.Unit, none)] ∧
    column_metadata " " none = [(Metadatum.Label, some " "), (Metadatum.Unit, none)] :=
  ⟨rfl, rfl⟩

/-- C7: `column_metadata` called without a unit stores `None` for `Unit`,
not the empty string the claim (and the repository's test
`test__column_metadata__no_unit__returns_empty_unit`) requires. -/
theorem column_metadata_default_unit_is_none :
    mdLookup? (column_metadata "MyLabel" none) Metadatum.Unit = some none ∧
    mdLookup? (column_metadata "MyLabel" none) Metadatum.Unit ≠ some (some "") :=
  ⟨rfl, by decide⟩

/-- C2: `init_data_group` accepts a blank group name and a blank key-column
name without raising, contradicting the claim (and the repository's tests
`test__init_data_group__group_key_invalid__fails` and
`test__init_data_group__column_name_invalid__fails`): the only check the
code performs is the duplicate-name check. -/
theorem init_data_group_accepts_blank_names :
    DataPreparer.init_data_group ⟨[]⟩ " " [("ColA", column_metadata "A" none)] =
      (⟨[(" ", ⟨⟨["ColA"], []⟩, [("ColA", column_metadata "A" none)]⟩)]⟩, none) ∧
    (DataPreparer.init_data_group ⟨[]⟩ "MyGroup" [(" ", column_metadata "A" none)]).2 = none :=
  ⟨rfl, rfl⟩

/-- C3 counterexample: the path `"xh5"` has none of the recognized container
extensions, yet `save_to_file` writes to `"xh5"` unchanged, because the code
tests whether `"h5"` occurs as a substring anywhere in the path rather than
as an extension. -/
theorem save_to_file_substring_counterexample :
    (DataPreparer.save_to_file ⟨[]⟩ "xh5").1 = "xh5" ∧
    specHasRecognizedExtension "xh5" = false := by
  constructor
  · rfl
  · decide

/-- C3 (amended): `save_to_file` leaves the path unchanged exactly when one
of the marker strings `"h5"`, `"hdf5"`, `"he5"` occurs as a substring
anywhere in the path; in particular a path that already ends in a
recognized extension is left unchanged, and a path containing no marker
gets `".hdf5"` appended, after which it ends in a recognized extension. -/
theorem save_to_file_extension_handling (p : DataPreparer) (path : String) :
    ((p.save_to_file path).1 = path ↔
      (["h5", "hdf5", "he5"].any (fun e => strContains e path)) = true) ∧
    (specHasRecognizedExtension path = true → (p.save_to_file path).1 = path) ∧
    ((["h5", "hdf5", "he5"].any (fun e => strContains e path)) = false →
      (p.save_to_file path).1 = path ++ ".hdf5" ∧
        specHasRecognizedExtension ((p.save_to_file path).1) = true) := by
  have hfst : (p.save_to_file path).1 = savePath path := rfl
  by_cases hany : (["h5", "hdf5", "he5"].any (fun e => strContains e path)) = true
  · refine ⟨?_, ?_, ?_⟩
    · rw [hfst]
      unfold savePath
      rw [if_pos hany]
      simp [hany]
    · intro _
      rw [hfst]
      unfold savePath
      rw [if_pos hany]
    · intro hfalse
      rw [hany] at hfalse
      exact absurd hfalse (by decide)
  · have hsave : savePath path = path ++ ".hdf5" := by
      unfold savePath
      rw [if_neg hany]
    refine ⟨?_, ?_, ?_⟩
    · rw [hfst, hsave]
      constructor
      · intro h
        exact absurd h (append_hdf5_ne path)
      · intro h
        exact absurd h hany
    · intro hext
      exfalso
      apply hany
      rw [specHasRecognizedExtension] at hext
      rw [List.any_eq_true] at hext ⊢
      obtain ⟨ext, hmem, hsuf⟩ := hext
      rw [decide_eq_true_iff] at hsuf
      fin_cases hmem
      · exact ⟨"h5", by decide, by
          rw [strContains, decide_eq_true_iff]
          exact List.IsInfix.trans (by decide) hsuf.isInfix⟩
      · exact ⟨"hdf5", by decide, by
          rw [strContains, decide_eq_true_iff]
          exact List.IsInfix.trans (by decide) hsuf.isInfix⟩
      · exact ⟨"he5", by decide, by
          rw [strContains, decide_eq_true_iff]
          exact List.IsInfix.trans (by decide) hsuf.isInfix⟩
    · intro _
      rw [hfst, hsave]
      refine ⟨rfl, ?_⟩
      rw [specHasRecognizedExtension, List.any_eq_true]
      refine ⟨".hdf5", by decide, ?_⟩
      rw [decide_eq_true_iff]
      have : (path ++ ".hdf5").toList = path.toList ++ ".hdf5".toList := by
        simp [String.toList]
      rw [this]
      exact List.suffix_append _ _

/-- C3 witness: a path ending in a recognized extension is written
unchanged, a path with no marker substring gets `".hdf5"` appended. -/
theorem save_to_file_extension_handling_witness :
    (DataPreparer.save_to_file ⟨[]⟩ "a.h5").1 = "a.h5" ∧
    (DataPreparer.save_to_file ⟨[]⟩ "deleteFile").1 = "deleteFile.hdf5" :=
  ⟨(save_to_file_extension_handling ⟨[]⟩ "a.h5").2.1 (by decide),
   ((save_to_file_extension_handling ⟨[]⟩ "deleteFile").2.2 (by decide)).1⟩

theorem find?_map_update {α : Type} (d : List (String × α)) (k : String) (v : α)
    (h : d.any (fun p => decide (p.1 = k)) = true) :
    (d.map (fun p => if p.1 = k then (k, v) else p)).find? (fun p => decide (p.1 = k)) =
      some (k, v) := by
  induction d with
  | nil => simp at h
  | cons a t ih =>
    by_cases ha : a.1 = k
    · simp [List.find?_cons, ha]
    · have ht : t.any (fun p => decide (p.1 = k)) = true := by
        simp [List.any_cons, ha] at h
        simpa using h
      simp [List.find?_cons, ha, ih ht]

theorem find?_append_none {α : Type} (l₁ l₂ : List α) (p : α → Bool)
    (h : l₁.find? p = none) : (l₁ ++ l₂).find? p = l₂.find? p := by
  induction l₁ with
  | nil => rfl
  | cons a t ih =>
    rw [List.find?_cons] at h
    cases hp : p a with
    | true => rw [hp] at h; exact absurd h (by simp)
    | false =>
      rw [hp] at h
      rw [List.cons_append, List.find?_cons, hp]
      exact ih h

/-- Updating a key in a dictionary makes lookup of that key return the new
value, whether the key was present before or not. -/
theorem lookup_dictUpdate {α : Type} (d : List (String × α)) (k : String) (v : α) :
    lookup? (dictUpdate d k v) k = some v := by
  unfold dictUpdate lookup?
  by_cases h : d.any (fun p => decide (p.1 = k)) = true
  · rw [if_pos h, find?_map_update d k v h]
    rfl
  · rw [if_neg h]
    have hnone : d.find? (fun p => decide (p.1 = k)) = none := by
      rw [List.find?_eq_none]
      intro x hx
      simp only [decide_eq_true_eq]
      intro hxk
      exact h (List.any_eq_true.mpr ⟨x, hx, by simp [hxk]⟩)
    rw [find?_append_none _ _ _ hnone]
    simp [List.find?_cons]

/-- C8: whenever an operation reports a `DataPreparationException`, the
preparer state it leaves behind is exactly the input state: every check of
`init_data_group`, `add_value_column` and `add_value_rows` precedes every
mutation. -/
theorem ops_error_leave_state_unchanged (p : DataPreparer) (g : String)
    (kmd : List (String × MetadataRecord)) (col rows : Series)
    (md : MetadataRecord) (mdo : Option MetadataRecord) :
    ((p.init_data_group g kmd).2.isSome = true → (p.init_data_group g kmd).1 = p) ∧
    ((p.add_value_column g col md).2.isSome = true → (p.add_value_column g col md).1 = p) ∧
    ((p.add_value_rows g rows mdo).2.isSome = true → (p.add_value_rows g rows mdo).1 = p) := by
  refine ⟨?_, ?_, ?_⟩
  · intro h
    by_cases hl : (lookup? p.datasets g).isSome = true
    · simp only [DataPreparer.init_data_group, if_pos hl]
    · exfalso
      have h2 : (p.init_data_group g kmd).2 = none := by
        simp only [DataPreparer.init_data_group, if_neg hl]
      rw [h2] at h
      simp at h
  · intro h
    cases hl : lookup? p.datasets g with
    | none => simp only [DataPreparer.add_value_column, hl]
    | some grp =>
      cases hm : assert_indexes_match grp.data col with
      | some e => simp only [DataPreparer.add_value_column, hl, hm]
      | none =>
        exfalso
        have h2 : (p.add_value_column g col md).2 = none := by
          simp only [DataPreparer.add_value_column, hl, hm]
        rw [h2] at h
        simp at h
  · intro h
    cases hl : lookup? p.datasets g with
    | none => simp only [DataPreparer.add_value_rows, hl]
    | some grp =>
      cases hm : assert_indexes_match grp.data rows with
      | some e => simp only [DataPreparer.add_value_rows, hl, hm]
      | none =>
        by_cases hmem : rows.name ∈ grp.data.cols.map Prod.fst
        · exfalso
          have h2 : (p.add_value_rows g rows mdo).2 = none := by
            simp only [DataPreparer.add_value_rows, hl, hm, if_pos hmem]
          rw [h2] at h
          simp at h
        · cases hf : metadataFalsy mdo with
          | true =>
            simp only [DataPreparer.add_value_rows, hl, hm, if_neg hmem, hf, if_pos]
          | false =>
            exfalso
            have h2 : (p.add_value_rows g rows mdo).2 = none := by
              simp only [DataPreparer.add_value_rows, hl, hm, if_neg hmem, hf,
                Bool.false_eq_true, if_neg, if_false]
            rw [h2] at h
            simp at h

/-- C8 witness: a duplicate `init_data_group`, an `add_value_column` on a
missing group and an `add_value_rows` on a missing group all report an
error and leave the one-group preparer exactly as it was. -/
theorem ops_error_leave_state_unchanged_witness :
    ((DataPreparer.init_data_group
        ⟨[("G", ⟨⟨["ColA"], []⟩, [("ColA", column_metadata "A" none)]⟩)]⟩ "G"
        [("ColA", column_metadata "A" none)]).1 =
      ⟨[("G", ⟨⟨["ColA"], []⟩, [("ColA", column_metadata "A" none)]⟩)]⟩) ∧
    ((DataPreparer.add_value_column
        ⟨[("G", ⟨⟨["ColA"], []⟩, [("ColA", column_metadata "A" none)]⟩)]⟩ "H"
        ⟨"V", ["ColA"], []⟩ (column_metadata "V" none)).1 =
      ⟨[("G", ⟨⟨["ColA"], []⟩, [("ColA", column_metadata "A" none)]⟩)]⟩) ∧
    ((DataPreparer.add_value_rows
        ⟨[("G", ⟨⟨["ColA"], []⟩, [("ColA", column_metadata "A" none)]⟩)]⟩ "H"
        ⟨"V", ["ColA"], []⟩ none).1 =
      ⟨[("G", ⟨⟨["ColA"], []⟩, [("ColA", column_metadata "A" none)]⟩)]⟩) :=
  ⟨(ops_error_leave_state_unchanged _ "G" [("ColA", column_metadata "A" none)]
      ⟨"V", ["ColA"], []⟩ ⟨"V", ["ColA"], []⟩ (column_metadata "V" none) none).1 (by decide),
   (ops_error_leave_state_unchanged _ "H" [("ColA", column_metadata "A" none)]
      ⟨"V", ["ColA"], []⟩ ⟨"V", ["ColA"], []⟩ (column_metadata "V" none) none).2.1 (by decide),
   (ops_error_leave_state_unchanged _ "H" [("ColA", column_metadata "A" none)]
      ⟨"V", ["ColA"], []⟩ ⟨"V", ["ColA"], []⟩ (column_metadata "V" none) none).2.2 (by decide)⟩

/-- When the group's index-name set and the series' index-name set differ,
`_assert_indexes_match` reports an error.  The `Nodup` hypothesis reflects
that a group's key columns come from the keys of a Python dictionary and
are therefore pairwise distinct. -/
theorem assert_indexes_match_isSome_of_ne (container : DataFrame) (column : Series)
    (hnd : container.indexNames.Nodup)
    (hne : container.indexNames.toFinset ≠ column.indexNames.toFinset) :
    (assert_indexes_match container column).isSome = true := by
  unfold assert_indexes_match
  by_cases hlen : container.indexNames.length ≠ column.indexNames.length
  · rw [if_pos hlen]
    rfl
  · rw [if_neg hlen]
    push_neg at hlen
    cases hfind : container.indexNames.find? (fun n => decide (n ∉ column.indexNames)) with
    | some n => rfl
    | none =>
      exfalso
      rw [List.find?_eq_none] at hfind
      have hsub : container.indexNames.toFinset ⊆ column.indexNames.toFinset := by
        intro a ha
        rw [List.mem_toFinset] at ha ⊢
        have := hfind a ha
        simp only [decide_eq_true_eq, not_not] at this
        exact this
      have hcard1 : container.indexNames.toFinset.card = container.indexNames.length :=
        List.toFinset_card_of_nodup hnd
      have hcard2 : column.indexNames.toFinset.card ≤ column.indexNames.length :=
        List.toFinset_card_le _
      exact hne (Finset.eq_of_subset_of_card_le hsub (by omega))

/-- C5: for an existing group, a column or row series whose index
column-name set differs from the group's key-column set makes both
`add_value_column` and `add_value_rows` report a
`DataPreparationException`, whatever the data contents. -/
theorem mismatched_index_names_always_fail (p : DataPreparer) (g : String) (grp : DataGroup)
    (s : Series) (md : MetadataRecord) (mdo : Option MetadataRecord)
    (hg : lookup? p.datasets g = some grp)
    (hnd : grp.data.indexNames.Nodup)
    (hne : grp.data.indexNames.toFinset ≠ s.indexNames.toFinset) :
    (p.add_value_column g s md).2.isSome = true ∧
    (p.add_value_rows g s mdo).2.isSome = true := by
  have hs := assert_indexes_match_isSome_of_ne grp.data s hnd hne
  rw [Option.isSome_iff_exists] at hs
  obtain ⟨e, he⟩ := hs
  constructor
  · simp only [DataPreparer.add_value_column, hg, he]
    rfl
  · simp only [DataPreparer.add_value_rows, hg, he]
    rfl

/-- C5 witness: a series indexed by `ColB` (same index length, different
name) is rejected by both operations on a group keyed by `ColA`; so is a
series with a two-level index. -/
theorem mismatched_index_names_always_fail_witness :
    (DataPreparer.add_value_column
        ⟨[("G", ⟨⟨["ColA"], []⟩, [("ColA", column_metadata "A" none)]⟩)]⟩ "G"
        ⟨"V", ["ColB"], [([1], 2)]⟩ (column_metadata "V" none)).2.isSome = true ∧
    (DataPreparer.add_value_rows
        ⟨[("G", ⟨⟨["ColA"], []⟩, [("ColA", column_metadata "A" none)]⟩)]⟩ "G"
        ⟨"V", ["ColB"], [([1], 2)]⟩ (some (column_metadata "V" none))).2.isSome = true :=
  mismatched_index_names_always_fail _ "G" ⟨⟨["ColA"], []⟩, [("ColA", column_metadata "A" none)]⟩
    ⟨"V", ["ColB"], [([1], 2)]⟩ (column_metadata "V" none) (some (column_metadata "V" none))
    (by decide) (by decide) (by decide)

/-- C6: on an existing group (with a shape-compatible series), `add_value_rows`
(a) fails for a new column name when the metadata argument is `None` or the
empty record, (b) registers the metadata for a new column name when it is
given, and (c) for a column name already present succeeds with any metadata
argument and leaves the group's metadata mapping unchanged. -/
theorem add_value_rows_metadata_policy (p : DataPreparer) (g : String) (grp : DataGroup)
    (s : Series) (md : MetadataRecord)
    (hg : lookup? p.datasets g = some grp)
    (hidx : assert_indexes_match grp.data s = none) :
    (s.name ∉ grp.data.cols.map Prod.fst →
      (p.add_value_rows g s none).2.isSome = true ∧
      (p.add_value_rows g s (some [])).2.isSome = true) ∧
    (s.name ∉ grp.data.cols.map Prod.fst → md ≠ [] →
      (p.add_value_rows g s (some md)).2 = none ∧
      lookup? (p.add_value_rows g s (some md)).1.datasets g =
        some ⟨concat_rows grp.data s, dictUpdate grp.metadata s.name md⟩) ∧
    (s.name ∈ grp.data.cols.map Prod.fst → ∀ mdo : Option MetadataRecord,
      (p.add_value_rows g s mdo).2 = none ∧
      lookup? (p.add_value_rows g s mdo).1.datasets g =
        some ⟨concat_rows grp.data s, grp.metadata⟩) := by
  refine ⟨?_, ?_, ?_⟩
  · intro hmem
    constructor
    · simp only [DataPreparer.add_value_rows, hg, hidx, if_neg hmem, metadataFalsy, if_pos]
      rfl
    · simp only [DataPreparer.add_value_rows, hg, hidx, if_neg hmem, metadataFalsy, if_pos]
      rfl
  · intro hmem hmd
    cases md with
    | nil => exact absurd rfl hmd
    | cons a t =>
      constructor
      · simp only [DataPreparer.add_value_rows, hg, hidx, if_neg hmem, metadataFalsy,
          Bool.false_eq_true, if_false]
      · simp only [DataPreparer.add_value_rows, hg, hidx, if_neg hmem, metadataFalsy,
          Bool.false_eq_true, if_false, Option.getD_some]
        exact lookup_dictUpdate _ _ _
  · intro hmem mdo
    constructor
    · simp only [DataPreparer.add_value_rows, hg, hidx, if_pos hmem]
    · simp only [DataPreparer.add_value_rows, hg, hidx, if_pos hmem]
      exact lookup_dictUpdate _ _ _

/-- C6 witness: on a one-group preparer, a new column without metadata or
with the empty record fails; with a record it succeeds and registers it; a
second call on the now-existing column succeeds with any metadata and the
group's metadata mapping stays as it was. -/
theorem add_value_rows_metadata_policy_witness :
    ((DataPreparer.add_value_rows
        ⟨[("G", ⟨⟨["ColA"], []⟩, [("ColA", column_metadata "A" none)]⟩)]⟩ "G"
        ⟨"V", ["ColA"], [([1], 2)]⟩ none).2.isSome = true ∧
     (DataPreparer.add_value_rows
        ⟨[("G", ⟨⟨["ColA"], []⟩, [("ColA", column_metadata "A" none)]⟩)]⟩ "G"
        ⟨"V", ["ColA"], [([1], 2)]⟩ (some [])).2.isSome = true) ∧
    ((DataPreparer.add_value_rows
        ⟨[("G", ⟨⟨["ColA"], []⟩, [("ColA", column_metadata "A" none)]⟩)]⟩ "G"
        ⟨"V", ["ColA"], [([1], 2)]⟩ (some (column_metadata "V" none))).2 = none ∧
     lookup? (DataPreparer.add_value_rows
        ⟨[("G", ⟨⟨["ColA"], []⟩, [("ColA", column_metadata "A" none)]⟩)]⟩ "G"
        ⟨"V", ["ColA"], [([1], 2)]⟩ (some (column_metadata "V" none))).1.datasets "G" =
       some ⟨concat_rows ⟨["ColA"], []⟩ ⟨"V", ["ColA"], [([1], 2)]⟩,
             dictUpdate [("ColA", column_metadata "A" none)] "V" (column_metadata "V" none)⟩) ∧
    ((DataPreparer.add_value_rows
        ⟨[("G", ⟨⟨["ColA"], [("V", [([1], 2)])]⟩, [("ColA", column_metadata "A" none),
            ("V", column_metadata "V" none)]⟩)]⟩ "G"
        ⟨"V", ["ColA"], [([1], 3)]⟩ (some (column_metadata "Other" none))).2 = none ∧
     lookup? (DataPreparer.add_value_rows
        ⟨[("G", ⟨⟨["ColA"], [("V", [([1], 2)])]⟩, [("ColA", column_metadata "A" none),
            ("V", column_metadata "V" none)]⟩)]⟩ "G"
        ⟨"V", ["ColA"], [([1], 3)]⟩ (some (column_metadata "Other" none))).1.datasets "G" =
       some ⟨concat_rows ⟨["ColA"], [("V", [([1], 2)])]⟩ ⟨"V", ["ColA"], [([1], 3)]⟩,
             [("ColA", column_metadata "A" none), ("V", column_metadata "V" none)]⟩) :=
  ⟨(add_value_rows_metadata_policy _ "G" ⟨⟨["ColA"], []⟩, [("ColA", column_metadata "A" none)]⟩
      ⟨"V", ["ColA"], [([1], 2)]⟩ (column_metadata "V" none) (by decide) (by decide)).1
      (by decide),
   (add_value_rows_metadata_policy _ "G" ⟨⟨["ColA"], []⟩, [("ColA", column_metadata "A" none)]⟩
      ⟨"V", ["ColA"], [([1], 2)]⟩ (column_metadata "V" none) (by decide) (by decide)).2.1
      (by decide) (by decide),
   (add_value_rows_metadata_policy _ "G"
      ⟨⟨["ColA"], [("V", [([1], 2)])]⟩,
        [("ColA", column_metadata "A" none), ("V", column_metadata "V" none)]⟩
      ⟨"V", ["ColA"], [([1], 3)]⟩ (column_metadata "Other" none) (by decide) (by decide)).2.2
      (by decide) (some (column_metadata "Other" none))⟩

/-- C10: `add_value_column` with a name equal to an already-present value
column succeeds, appends the new column next to the old one — the table
then carries the name twice, the old column's cells untouched — and the
metadata registered under that name is overwritten by the new record. -/
theorem add_value_column_duplicate_name (p : DataPreparer) (g : String) (grp : DataGroup)
    (col : Series) (md : MetadataRecord)
    (hg : lookup? p.datasets g = some grp)
    (hidx : assert_indexes_match grp.data col = none)
    (hmem : col.name ∈ grp.data.cols.map Prod.fst) :
    (p.add_value_column g col md).2 = none ∧
    lookup? (p.add_value_column g col md).1.datasets g =
      some ⟨⟨grp.data.indexNames, grp.data.cols ++ [(col.name, col.entries)]⟩,
            dictUpdate grp.metadata col.name md⟩ ∧
    2 ≤ ((grp.data.cols ++ [(col.name, col.entries)]).map Prod.fst).count col.name ∧
    lookup? (dictUpdate grp.metadata col.name md) col.name = some md := by
  refine ⟨?_, ?_, ?_, lookup_dictUpdate _ _ _⟩
  · simp only [DataPreparer.add_value_column, hg, hidx]
  · simp only [DataPreparer.add_value_column, hg, hidx]
    exact lookup_dictUpdate _ _ _
  · rw [List.map_append, List.count_append]
    have h1 : 1 ≤ (grp.data.cols.map Prod.fst).count col.name := by
      rw [Nat.one_le_iff_ne_zero]
      intro h0
      rw [List.count_eq_zero] at h0
      exact h0 hmem
    have h2 : ([(col.name, col.entries)].map Prod.fst).count col.name = 1 := by
      simp
    omega

/-- C10 witness: adding a second column named `V` to a group that already
has one leaves both columns in the table and overwrites the metadata. -/
theorem add_value_column_duplicate_name_witness :
    (DataPreparer.add_value_column
        ⟨[("G", ⟨⟨["ColA"], [("V", [([1], 2)])]⟩, [("ColA", column_metadata "A" none),
            ("V", column_metadata "Old" none)]⟩)]⟩ "G"
        ⟨"V", ["ColA"], [([2], 9)]⟩ (column_metadata "New" none)).2 = none ∧
    lookup? (DataPreparer.add_value_column
        ⟨[("G", ⟨⟨["ColA"], [("V", [([1], 2)])]⟩, [("ColA", column_metadata "A" none),
            ("V", column_metadata "Old" none)]⟩)]⟩ "G"
        ⟨"V", ["ColA"], [([2], 9)]⟩ (column_metadata "New" none)).1.datasets "G" =
      some ⟨⟨["ColA"], [("V", [([1], 2)]), ("V", [([2], 9)])]⟩,
            dictUpdate [("ColA", column_metadata "A" none), ("V", column_metadata "Old" none)]
              "V" (column_metadata "New" none)⟩ ∧
    2 ≤ ((([("V", [([1], 2)])] ++ [("V", [([2], 9)])] :
            List (String × List (List Int × Int))).map Prod.fst).count "V") ∧
    lookup? (dictUpdate [("ColA", column_metadata "A" none), ("V", column_metadata "Old" none)]
        "V" (column_metadata "New" none)) "V" = some (column_metadata "New" none) :=
  add_value_column_duplicate_name _ "G"
    ⟨⟨["ColA"], [("V", [([1], 2)])]⟩,
      [("ColA", column_metadata "A" none), ("V", column_metadata "Old" none)]⟩
    ⟨"V", ["ColA"], [([2], 9)]⟩ (column_metadata "New" none)
    (by decide) (by decide) (by decide)

theorem sumAt_append (e1 e2 : List (List Int × Int)) (k : List Int) :
    sumAt (e1 ++ e2) k = sumAt e1 k + sumAt e2 k := by
  unfold sumAt
  rw [List.filter_append, List.map_append, List.sum_append]

/-- The key list produced by the write-time grouping has no duplicate index
tuples: the compacted table holds one row per key. -/
theorem dedupKeys_nodup (l : List (List Int)) : (dedupKeys l).Nodup :=
  List.nodup_dedup l

/-- C4: two `add_value_rows` calls with the same index tuple and the same
column name keep two separate rows in the in-memory table; the write-time
compaction `_group_by_index` is what merges them into one row holding the
sum.  The last two conjuncts state the policy in general: grouping sums all
entries at a key, and the grouped key list has no duplicates. -/
theorem add_value_rows_accumulate_and_sum_at_save (i : List Int) (v1 v2 : Int) :
    ((DataPreparer.init_data_group ⟨[]⟩ "Group"
        [("ColA", column_metadata "A" (some ""))]).1.add_value_rows "Group"
        ⟨"MyValueColumn", ["ColA"], [(i, v1)]⟩
        (some (column_metadata "SomeLabel" none))).1.add_value_rows "Group"
        ⟨"MyValueColumn", ["ColA"], [(i, v2)]⟩ none =
      (⟨[("Group",
          ⟨⟨["ColA"], [("MyValueColumn", [(i, v1), (i, v2)])]⟩,
            [("ColA", column_metadata "A" (some "")),
             ("MyValueColumn", column_metadata "SomeLabel" none)]⟩)]⟩, none) ∧
    DataPreparer.group_by_index ⟨["ColA"], [("MyValueColumn", [(i, v1), (i, v2)])]⟩ =
      ⟨["ColA"], [("MyValueColumn", [(i, v1 + v2)])]⟩ ∧
    (∀ (e : List (List Int × Int)) (w1 w2 : Int),
      sumAt (e ++ [(i, w1), (i, w2)]) i = sumAt e i + (w1 + w2)) ∧
    (∀ l : List (List Int), (dedupKeys l).Nodup) := by
  refine ⟨rfl, ?_, ?_, dedupKeys_nodup⟩
  · unfold DataPreparer.group_by_index
    simp [dedupKeys, sumAt]
  · intro e w1 w2
    rw [sumAt_append]
    simp [sumAt]

/-- The round-trip scenario of the spec: one group `Group` keyed by `ColA`,
one value column `MyValueColumn` filled by two `add_value_rows` calls at the
distinct index values `1` and `2`. -/
def roundTripPreparer : DataPreparer :=
  (((DataPreparer.init_data_group ⟨[]⟩ "Group"
      [("ColA", column_metadata "A" (some ""))]).1.add_value_rows "Group"
      ⟨"MyValueColumn", ["ColA"], [([1], 5)]⟩
      (some (column_metadata "SomeLabel" (some "")))).1.add_value_rows "Group"
      ⟨"MyValueColumn", ["ColA"], [([2], 7)]⟩ none).1

/-- C9 counterexample: in the spec's round-trip scenario the decoded
metadata block keeps the column's original spelling `"MyValueColumn"` as
its key — there is no `"myvaluecolumn"` entry, because `_convert_enums`
lower-cases only the inner enum field names, never the column names. -/
theorem metadata_block_key_not_lowercased :
    ((DataPreparer.save_to_file roundTripPreparer "out.h5").2.map
        (fun g => (g.1, g.2.2))) =
      [("Group", [("ColA", [("label", some "A"), ("unit", some "")]),
                  ("MyValueColumn", [("label", some "SomeLabel"), ("unit", some "")])])] ∧
    (lookup? ((DataPreparer.save_to_file roundTripPreparer "out.h5").2.map
        (fun g => (g.1, g.2.2))) "Group").map
      (fun block => lookup? block "myvaluecolumn") = some none := by
  exact ⟨rfl, rfl⟩

/-- C9 (amended): the decoded metadata block maps each column name, kept in
its original spelling, to a mapping of lower-cased metadata field names
(`"label"`, `"unit"`) to values; in the round-trip scenario the written
table holds both rows under `MyValueColumn` and the block carries the
entry under the key `"MyValueColumn"`. -/
theorem metadata_block_structure_round_trip :
    (∀ md : List (String × MetadataRecord),
      (DataPreparer.convert_enums md).map Prod.fst = md.map Prod.fst) ∧
    strLower Metadatum.Label.enumName = "label" ∧
    strLower Metadatum.Unit.enumName = "unit" ∧
    (DataPreparer.save_to_file roundTripPreparer "out.h5").2 =
      [("Group", ⟨["ColA"], [("MyValueColumn", [([1], 5), ([2], 7)])]⟩,
        [("ColA", [("label", some "A"), ("unit", some "")]),
         ("MyValueColumn", [("label", some "SomeLabel"), ("unit", some "")])])] ∧
    lookup? [("ColA", ([("label", some "A"), ("unit", some "")] : List (String × Option String))),
        ("MyValueColumn", [("label", some "SomeLabel"), ("unit", some "")])]
      "MyValueColumn" = some [("label", some "SomeLabel"), ("unit", some "")] := by
  refine ⟨?_, rfl, rfl, rfl, rfl⟩
  intro md
  induction md with
  | nil => rfl
  | cons a t ih =>
    unfold DataPreparer.convert_enums at ih ⊢
    simp only [List.map_cons, ih]
